import Mathlib

/-!
Verification development for the real-time voice pipeline
(`src/lib/voice-pipeline.ts`, Deepgram Voice Agent variant).

The pipeline object is modelled as a record of the class fields that the
claims are about; every handler of the source becomes a pure function
`Pipeline → Pipeline × List Ev`, where the event list records the observer
callbacks (`onStateChange`, `onInterimTranscript`, `onFinalTranscript`,
`onError`, `onAudioLevel`, `onWaveformData`) and the start of audible
playback of a chunk (`source.start()`).  Int16 samples are `Int`, float
samples are `ℚ` (all values arising here are dyadic rationals, on which
JS float arithmetic is exact).  The cooperative event scheduler of the
browser becomes an explicit step relation `step : Event → Pipeline →
Pipeline × List Ev` folded over event traces.
-/

namespace VP

/-- Conversation state reported through `onStateChange`. -/
inductive PState
  | idle
  | listening
  | thinking
  | speaking
deriving DecidableEq, Repr

/-- Transcript role. -/
inductive Role
  | user
  | assistant
deriving DecidableEq, Repr

/-- WebSocket ready states that the source distinguishes. -/
inductive SockState
  | connecting
  | opened
  | closed
deriving DecidableEq, Repr

/-- Observable outputs: observer callbacks plus the start of audible
playback of a chunk. -/
inductive Ev
  | stateChange (s : PState)
  | interimTranscript (t : String)
  | finalTranscript (r : Role) (t : String)
  | errorCb (e : String)
  | audioLevel (x : ℚ)
  | waveformData (xs : List ℚ)
  | playStart (c : List ℚ)
deriving DecidableEq, Repr

/-- The mutable fields of the `VoicePipeline` class that the claims are
about.  Nullable handles (`mediaStream`, `audioContext`, `playbackContext`,
`animationFrame`) are kept as presence booleans; `convState` records the
last state passed to `onStateChange` (initially `idle`, the observer's
initial state). -/
structure Pipeline where
  isRunning : Bool
  reconnectAttempts : Nat
  socket : Option SockState
  reconnectTimerSet : Bool
  mediaStream : Bool
  audioContext : Bool
  playbackContext : Bool
  animationFrame : Bool
  audioQueue : List (List ℚ)
  isPlaying : Bool
  currentSource : Option (List ℚ)
  pendingAudioChunks : List (List Int)
  pendingSamples : Nat
  convState : PState
deriving DecidableEq, Repr

/-- Field initializers of the class: everything null/empty/false. -/
def initState : Pipeline :=
  { isRunning := false
    reconnectAttempts := 0
    socket := none
    reconnectTimerSet := false
    mediaStream := false
    audioContext := false
    playbackContext := false
    animationFrame := false
    audioQueue := []
    isPlaying := false
    currentSource := none
    pendingAudioChunks := []
    pendingSamples := 0
    convState := PState.idle }

/-- `MAX_RECONNECTS` of the source. -/
def MAX_RECONNECTS : Nat := 3

/-- `BUFFER_SIZE` of the source (samples). -/
def BUFFER_SIZE : Nat := 3200

/-- Conversion of a playback int16 sample to a float sample:
`combined[i] / 32768`. -/
def int16ToFloat (v : Int) : ℚ := (v : ℚ) / 32768

/-- The relevant fields of a parsed inbound JSON message.  A field holds
`none` when it is absent (or not a string); `some ""` is present but
falsy in JS. -/
structure RawMsg where
  type : Option String := none
  role : Option String := none
  content : Option String := none
  text : Option String := none
  transcript : Option String := none
  description : Option String := none
  message : Option String := none
deriving DecidableEq, Repr

/-- JS `a || b` on a possibly-absent string `a`: falls through to `b`
when `a` is absent or empty. -/
def jsOrStr (a : Option String) (b : String) : String :=
  match a with
  | some s => if s.isEmpty then b else s
  | none => b

/-- `msg.content || msg.text || msg.transcript || ""` of `handleTranscript`. -/
def transcriptText (m : RawMsg) : String :=
  jsOrStr m.content (jsOrStr m.text (jsOrStr m.transcript ""))

/-- `interruptPlayback()`: stop the current source, drop the queue, drop
the pending accumulator, clear the playing flag. -/
def interruptPlayback (p : Pipeline) : Pipeline :=
  { p with currentSource := none
           audioQueue := []
           pendingAudioChunks := []
           pendingSamples := 0
           isPlaying := false }

/-- `playNextBuffer()`: if the playback context is live and the queue is
nonempty, shift the head into the current source and start it; otherwise
clear the playing flag and, while running, report `listening`. -/
def playNextBuffer (p : Pipeline) : Pipeline × List Ev :=
  match p.playbackContext, p.audioQueue with
  | true, c :: rest =>
      ({ p with isPlaying := true, audioQueue := rest, currentSource := some c },
       [Ev.playStart c])
  | _, _ =>
      if p.isRunning then
        ({ p with isPlaying := false, convState := PState.listening },
         [Ev.stateChange PState.listening])
      else
        ({ p with isPlaying := false }, [])

/-- `flushAudioBuffer()`: concatenate the pending chunks in arrival order,
convert to floats, append as one chunk to the queue, and start playback if
nothing is playing. -/
def flushAudioBuffer (p : Pipeline) : Pipeline × List Ev :=
  if p.playbackContext = false ∨ p.pendingAudioChunks = [] then (p, [])
  else
    let float32 := p.pendingAudioChunks.flatten.map int16ToFloat
    let p1 := { p with pendingAudioChunks := []
                       pendingSamples := 0
                       audioQueue := p.audioQueue ++ [float32] }
    if p1.isPlaying = false then playNextBuffer p1 else (p1, [])

/-- `handleAudioChunk(int16)`: ignore empty blocks, accumulate, flush at
the threshold. -/
def handleAudioChunk (pcm : List Int) (p : Pipeline) : Pipeline × List Ev :=
  if pcm.length = 0 then (p, [])
  else
    let p1 := { p with pendingAudioChunks := p.pendingAudioChunks ++ [pcm]
                       pendingSamples := p.pendingSamples + pcm.length }
    if BUFFER_SIZE ≤ p1.pendingSamples then flushAudioBuffer p1 else (p1, [])

/-- `handleTranscript(msg)`: extract the text through the field-alias
chain, drop when it trims to empty, otherwise clear interim text and emit
one transcript entry. -/
def handleTranscript (m : RawMsg) (p : Pipeline) : Pipeline × List Ev :=
  let text := transcriptText m
  if text.trim.isEmpty then (p, [])
  else
    let role := if m.role = some "user" then Role.user else Role.assistant
    (p, [Ev.interimTranscript "", Ev.finalTranscript role text.trim])

/-- `stop()`: cancel playback, close and drop the socket, release all
device handles, and report idle. -/
def stop (p : Pipeline) : Pipeline × List Ev :=
  let p1 := interruptPlayback { p with isRunning := false, animationFrame := false }
  let p2 := { p1 with socket := none
                      mediaStream := false
                      audioContext := false
                      playbackContext := false
                      convState := PState.idle }
  (p2, [Ev.interimTranscript "", Ev.stateChange PState.idle,
        Ev.audioLevel 0, Ev.waveformData []])

/-- `handleAgentMessage(msg)`: the switch on `msg.type`. -/
def handleAgentMessage (m : RawMsg) (p : Pipeline) : Pipeline × List Ev :=
  if m.type = some "SettingsApplied" then
    ({ p with reconnectAttempts := 0, convState := PState.listening },
     [Ev.stateChange PState.listening])
  else if m.type = some "UserStartedSpeaking" then
    ({ interruptPlayback p with convState := PState.listening },
     [Ev.stateChange PState.listening])
  else if m.type = some "ConversationText" then
    handleTranscript m p
  else if m.type = some "AgentThinking" then
    ({ p with convState := PState.thinking }, [Ev.stateChange PState.thinking])
  else if m.type = some "AgentStartedSpeaking" then
    ({ p with convState := PState.speaking }, [Ev.stateChange PState.speaking])
  else if m.type = some "AgentAudioDone" then
    flushAudioBuffer p
  else if m.type = some "Error" then
    (p, [Ev.errorCb (jsOrStr m.description (jsOrStr m.message "Agent error"))])
  else
    (p, [])

/-- `connectAgent()`: guarded by the liveness flag; opens a fresh socket. -/
def connectAgent (p : Pipeline) : Pipeline × List Ev :=
  if p.isRunning = false then (p, [])
  else ({ p with socket := some SockState.connecting }, [])

/-- The `socket.onclose` handler: schedule a reconnect while running and
below the budget, fatal error plus `stop()` once the budget is reached. -/
def onSocketClose (p0 : Pipeline) : Pipeline × List Ev :=
  let p := { p0 with socket := some SockState.closed }
  if p.isRunning = true ∧ p.reconnectAttempts < MAX_RECONNECTS then
    ({ p with reconnectAttempts := p.reconnectAttempts + 1, reconnectTimerSet := true }, [])
  else if MAX_RECONNECTS ≤ p.reconnectAttempts then
    let r := stop p
    (r.1, Ev.errorCb "Connection lost. Please restart." :: r.2)
  else (p, [])

/-- The `socket.onopen` handler (sends the settings message outbound). -/
def onSocketOpen (p : Pipeline) : Pipeline × List Ev :=
  ({ p with socket := some SockState.opened }, [])

/-- Firing of the `setTimeout` reconnect timer. -/
def onReconnectTimer (p : Pipeline) : Pipeline × List Ev :=
  connectAgent { p with reconnectTimerSet := false }

/-- `start()` along its success path: no-op when already running,
otherwise acquire the microphone and both audio contexts and connect. -/
def startOk (p : Pipeline) : Pipeline × List Ev :=
  if p.isRunning = true then (p, [])
  else
    connectAgent { p with isRunning := true
                          mediaStream := true
                          audioContext := true
                          playbackContext := true
                          animationFrame := true }

/-- Text branch of `socket.onmessage`: `JSON.parse` inside try/catch, a
parse failure (`none`) is swallowed. -/
def onSocketText (parsed : Option RawMsg) (p : Pipeline) : Pipeline × List Ev :=
  match parsed with
  | none => (p, [])
  | some m => handleAgentMessage m p

/-- The `source.onended` handler: drop the finished source and continue
with the queue. -/
def onSourceEnded (p : Pipeline) : Pipeline × List Ev :=
  playNextBuffer { p with currentSource := none }

/-- External events driving the pipeline (the cooperative scheduler). -/
inductive Event
  | evStart
  | evOpen
  | evClose
  | evText (parsed : Option RawMsg)
  | evBinary (pcm : List Int)
  | evTimer
  | evEnded
  | evStop
deriving DecidableEq, Repr

/-- One scheduler step. -/
def step : Event → Pipeline → Pipeline × List Ev
  | Event.evStart, p => startOk p
  | Event.evOpen, p => onSocketOpen p
  | Event.evClose, p => onSocketClose p
  | Event.evText parsed, p => onSocketText parsed p
  | Event.evBinary pcm, p => handleAudioChunk pcm p
  | Event.evTimer, p => onReconnectTimer p
  | Event.evEnded, p => onSourceEnded p
  | Event.evStop, p => stop p

/-- Fold of `step` over an event trace (states only). -/
def run : List Event → Pipeline → Pipeline
  | [], p => p
  | e :: t, p => run t (step e p).1

/-- All outputs emitted along an event trace. -/
def evsAlong : List Event → Pipeline → List Ev
  | [], _ => []
  | e :: t, p => (step e p).2 ++ evsAlong t (step e p).1

/-- Truncation toward zero on rationals: the value conversion a JS
`Int16Array` store applies to its argument (ToIntegerOrInfinity). -/
def truncQ (q : ℚ) : ℤ := if q < 0 then ⌈q⌉ else ⌊q⌋

/-- `Math.max(-1, Math.min(1, s))` of the capture callback. -/
def clampSample (s : ℚ) : ℚ := max (-1) (min 1 s)

/-- The outbound int16 encoding of one float capture sample:
`s < 0 ? s * 0x8000 : s * 0x7fff` stored into an `Int16Array`
(store truncates toward zero). -/
def encodeSample (s : ℚ) : ℤ :=
  if clampSample s < 0 then truncQ (clampSample s * 32768)
  else truncQ (clampSample s * 32767)

/-- Encoding of a whole capture block. -/
def encodeBlock (xs : List ℚ) : List ℤ := xs.map encodeSample

/-- Modelled from the spec words of the claim (for refutation): the same
encoding but with rounding instead of truncation. -/
def encodeSampleSpec (s : ℚ) : ℤ :=
  if clampSample s < 0 then round (clampSample s * 32768)
  else round (clampSample s * 32767)

/-- View of an optional current source as a list of chunks. -/
def optList : Option (List ℚ) → List (List ℚ)
  | some c => [c]
  | none => []

/-- The chunks now owned by the playback side: the playing source, if
any, followed by the queue. -/
def playbackMaterial (p : Pipeline) : List (List ℚ) :=
  optList p.currentSource ++ p.audioQueue

/-- The accumulator bookkeeping invariant: the running sample count is
the sum of the lengths of the pending chunks. -/
def pendingOK (p : Pipeline) : Prop :=
  p.pendingSamples = (p.pendingAudioChunks.map List.length).sum

/-- The sample blocks delivered by the binary socket events of a trace. -/
def ingestedBlocks : List Event → List (List Int)
  | [] => []
  | Event.evBinary pcm :: t => pcm :: ingestedBlocks t
  | _ :: t => ingestedBlocks t

/-- A playable chunk is built from a stock of blocks when it is the float
conversion of a concatenation of blocks of the stock. -/
def FromBlocks (bs : List (List Int)) (c : List ℚ) : Prop :=
  ∃ l : List (List Int), (∀ b ∈ l, b ∈ bs) ∧ c = l.flatten.map int16ToFloat

/-- Provenance invariant: pending blocks come from the stock and queued
chunks are built from the stock. -/
def Prov (bs : List (List Int)) (p : Pipeline) : Prop :=
  (∀ b ∈ p.pendingAudioChunks, b ∈ bs) ∧ (∀ c ∈ p.audioQueue, FromBlocks bs c)

/-- The chunks whose audible playback starts along a trace. -/
def playedAlong (t : List Event) (p : Pipeline) : List (List ℚ) :=
  (evsAlong t p).filterMap fun e =>
    match e with
    | Ev.playStart c => some c
    | _ => none

/-- Whether an output is a finalized transcript entry. -/
def isFinalEv : Ev → Bool
  | Ev.finalTranscript _ _ => true
  | _ => false

/-- Roles of the transcript entries in an output list. -/
def finalRoles (l : List Ev) : List Role :=
  l.filterMap fun e =>
    match e with
    | Ev.finalTranscript r _ => some r
    | _ => none

/-- Texts of the transcript entries in an output list. -/
def finalTexts (l : List Ev) : List String :=
  l.filterMap fun e =>
    match e with
    | Ev.finalTranscript _ t => some t
    | _ => none

/-- Whether an output is an error callback. -/
def isErrorEv : Ev → Bool
  | Ev.errorCb _ => true
  | _ => false

/-- A session that performs a successful handshake and then suffers three
consecutive close-without-handshake cycles, each close but the last
followed by the firing of its reconnect timer. -/
def c2trace : List Event :=
  [Event.evStart, Event.evOpen,
   Event.evText (some { type := some "SettingsApplied" }),
   Event.evClose, Event.evTimer,
   Event.evClose, Event.evTimer,
   Event.evClose]

/-- A live session whose playback side is busy with a chunk and whose
accumulator is empty: the starting point of the 2000/1600 ingest
scenario. -/
def c4start : Pipeline :=
  { initState with isRunning := true
                   socket := some SockState.opened
                   mediaStream := true
                   audioContext := true
                   playbackContext := true
                   animationFrame := true
                   isPlaying := true
                   currentSource := some [0]
                   convState := PState.speaking }

/-- The scenario state after ingesting a 2000-sample block. -/
def c4mid : Pipeline := (handleAudioChunk (List.replicate 2000 0) c4start).1

/-- The sample blocks delivered by one event. -/
def blocksOf : Event → List (List Int)
  | Event.evBinary pcm => [pcm]
  | _ => []

/-- A concrete finalized user transcript message. -/
def c10msg : RawMsg :=
  { type := some "ConversationText", role := some "user", content := some " hi " }

/-- A concrete user-started-speaking (barge-in) message. -/
def c1msg : RawMsg := { type := some "UserStartedSpeaking" }

/-- A concrete agent-audio-done (turn-audio-complete) message. -/
def c4done : RawMsg := { type := some "AgentAudioDone" }

/-- A live session in the middle of agent speech: two chunks queued, one
chunk playing, one block pending — the barge-in scenario state. -/
def c1busy : Pipeline :=
  { c4start with audioQueue := [[1], [2]]
                 pendingAudioChunks := [[3]]
                 pendingSamples := 1 }

theorem playNextBuffer_nil (p : Pipeline) (h : p.audioQueue = []) :
    playNextBuffer p =
      if p.isRunning = true then
        ({ p with isPlaying := false, convState := PState.listening },
         [Ev.stateChange PState.listening])
      else ({ p with isPlaying := false }, []) := by
  unfold playNextBuffer
  rw [h]
  cases hb : p.playbackContext <;> simp

theorem playNextBuffer_cons (p : Pipeline) (c : List ℚ) (rest : List (List ℚ))
    (hb : p.playbackContext = true) (h : p.audioQueue = c :: rest) :
    playNextBuffer p =
      ({ p with isPlaying := true, audioQueue := rest, currentSource := some c },
       [Ev.playStart c]) := by
  unfold playNextBuffer
  rw [h, hb]

theorem playNextBuffer_pending (p : Pipeline) :
    (playNextBuffer p).1.pendingAudioChunks = p.pendingAudioChunks ∧
    (playNextBuffer p).1.pendingSamples = p.pendingSamples := by
  unfold playNextBuffer
  rcases hq : p.audioQueue with _ | ⟨c, rest⟩ <;>
    cases hb : p.playbackContext <;>
      cases hr : p.isRunning <;>
        simp [hr]

theorem flushAudioBuffer_noPending (p : Pipeline) (h : p.pendingAudioChunks = []) :
    flushAudioBuffer p = (p, []) := by
  simp [flushAudioBuffer, h]

theorem length_comp_map (l : List (List Int)) :
    List.map (List.length ∘ List.map int16ToFloat) l = List.map List.length l := by
  induction l with
  | nil => rfl
  | cons a t ih => simp [Function.comp, ih]

theorem pendingOK_playNextBuffer (q : Pipeline) (h : pendingOK q) :
    pendingOK (playNextBuffer q).1 := by
  have hpp := playNextBuffer_pending q
  unfold pendingOK at *
  rw [hpp.2, hpp.1]
  exact h

theorem stop_pendingOK (q : Pipeline) : pendingOK (stop q).1 := by
  simp [pendingOK, stop, interruptPlayback]

theorem flushAudioBuffer_pendingOK (p : Pipeline) (h : pendingOK p) :
    pendingOK (flushAudioBuffer p).1 := by
  unfold flushAudioBuffer
  dsimp only
  split
  · exact h
  · split
    · apply pendingOK_playNextBuffer
      simp [pendingOK]
    · simp [pendingOK]

theorem handleAudioChunk_pendingOK (pcm : List Int) (p : Pipeline) (h : pendingOK p) :
    pendingOK (handleAudioChunk pcm p).1 := by
  unfold handleAudioChunk
  dsimp only
  split
  · exact h
  · split
    · apply flushAudioBuffer_pendingOK
      simp [pendingOK]
      exact h
    · simp [pendingOK]
      exact h

theorem handleAgentMessage_pendingOK (m : RawMsg) (p : Pipeline) (h : pendingOK p) :
    pendingOK (handleAgentMessage m p).1 := by
  unfold handleAgentMessage
  split
  · exact h
  · split
    · simp [pendingOK, interruptPlayback]
    · split
      · unfold handleTranscript
        dsimp only
        split
        · exact h
        · exact h
      · split
        · exact h
        · split
          · exact h
          · split
            · exact flushAudioBuffer_pendingOK p h
            · split
              · exact h
              · exact h

theorem step_pendingOK (e : Event) (p : Pipeline) (h : pendingOK p) :
    pendingOK (step e p).1 := by
  cases e with
  | evStart =>
      show pendingOK (startOk p).1
      unfold startOk connectAgent
      split
      · exact h
      · split
        · exact h
        · exact h
  | evOpen => exact h
  | evClose =>
      show pendingOK (onSocketClose p).1
      unfold onSocketClose
      dsimp only
      split
      · exact h
      · split
        · exact stop_pendingOK _
        · exact h
  | evText parsed =>
      cases parsed with
      | none => exact h
      | some m => exact handleAgentMessage_pendingOK m p h
  | evBinary pcm => exact handleAudioChunk_pendingOK pcm p h
  | evTimer =>
      show pendingOK (onReconnectTimer p).1
      unfold onReconnectTimer connectAgent
      split
      · exact h
      · exact h
  | evEnded =>
      exact pendingOK_playNextBuffer _ h
  | evStop => exact stop_pendingOK _

theorem run_pendingOK (t : List Event) (p : Pipeline) (h : pendingOK p) :
    pendingOK (run t p) := by
  induction t generalizing p with
  | nil => exact h
  | cons e t ih => exact ih _ (step_pendingOK e p h)

/-- Claim C6: `stop` is idempotent; it always ends in conversation state
`idle`, composing it with itself changes nothing, and calling it on the
freshly constructed (never started) pipeline is a no-op on the state
which also ends in `idle`. -/
theorem claim_C6 (p : Pipeline) :
    (stop p).1.convState = PState.idle ∧
    stop (stop p).1 = stop p ∧
    (stop initState).1 = initState ∧
    (stop initState).1.convState = PState.idle :=
  ⟨rfl, rfl, by decide, rfl⟩

/-- Claim C7: a text message whose JSON parse fails is dropped: the
handler leaves the whole pipeline state unchanged, emits no observer
callback, and every subsequent event is processed exactly as if the
malformed message had never arrived. -/
theorem claim_C7 (p : Pipeline) (e : Event) :
    step (Event.evText none) p = (p, []) ∧
    step e (step (Event.evText none) p).1 = step e p :=
  ⟨rfl, rfl⟩

/-- Claim C9: a flush signal (direct call or agent-audio-done message)
arriving with an empty pending accumulator is a complete no-op, and so is
an ingest of a zero-length sample block. -/
theorem claim_C9 (p : Pipeline) (m : RawMsg) (pcm : List Int)
    (hp : p.pendingAudioChunks = [])
    (hm : m.type = some "AgentAudioDone")
    (hpcm : pcm.length = 0) :
    flushAudioBuffer p = (p, []) ∧
    step (Event.evText (some m)) p = (p, []) ∧
    handleAudioChunk pcm p = (p, []) := by
  refine ⟨flushAudioBuffer_noPending p hp, ?_, ?_⟩
  · simp [step, onSocketText, handleAgentMessage, hm, flushAudioBuffer, hp]
  · simp [handleAudioChunk, hpcm]

/-- Witness for C9 at the fresh pipeline, a concrete agent-audio-done
message, and the empty block. -/
theorem claim_C9_witness :
    flushAudioBuffer initState = (initState, []) ∧
    step (Event.evText (some { type := some "AgentAudioDone" })) initState =
      (initState, []) ∧
    handleAudioChunk [] initState = (initState, []) :=
  claim_C9 initState { type := some "AgentAudioDone" } [] rfl rfl rfl

/-- Claim C3: while the session is running, the settings-acknowledged
event yields state `listening`, agent-thinking yields `thinking`,
agent-started-speaking yields `speaking`, exhaustion of the playback
queue yields `listening` and never `idle`, and a user-started-speaking
event in any state forces `listening` and empties the playback queue. -/
theorem claim_C3 (p pe : Pipeline) (m1 m2 m3 m4 : RawMsg)
    (_hrun : p.isRunning = true)
    (hm1 : m1.type = some "SettingsApplied")
    (hm2 : m2.type = some "AgentThinking")
    (hm3 : m3.type = some "AgentStartedSpeaking")
    (hm4 : m4.type = some "UserStartedSpeaking")
    (he1 : pe.isRunning = true)
    (he2 : pe.audioQueue = []) :
    (step (Event.evText (some m1)) p).1.convState = PState.listening ∧
    (step (Event.evText (some m2)) p).1.convState = PState.thinking ∧
    (step (Event.evText (some m3)) p).1.convState = PState.speaking ∧
    (step Event.evEnded pe).1.convState = PState.listening ∧
    (step Event.evEnded pe).1.convState ≠ PState.idle ∧
    (step (Event.evText (some m4)) p).1.convState = PState.listening ∧
    (step (Event.evText (some m4)) p).1.audioQueue = [] := by
  have hend : onSourceEnded pe =
      ({ pe with currentSource := none, isPlaying := false,
                 convState := PState.listening },
       [Ev.stateChange PState.listening]) := by
    show playNextBuffer { pe with currentSource := none } = _
    rw [playNextBuffer_nil _ (by simpa using he2)]
    simp [he1]
  refine ⟨?_, ?_, ?_, ?_, ?_, ?_, ?_⟩ <;>
    simp [step, onSocketText, handleAgentMessage, hm1, hm2, hm3, hm4, hend,
      interruptPlayback]

/-- Witness for C3 at a running session with a nonempty queue for the
message transitions, a running session with an exhausted queue for the
playback-idle transition, and concrete messages of each type. -/
theorem claim_C3_witness :
    (step (Event.evText (some { type := some "SettingsApplied" })) c4start).1.convState
        = PState.listening ∧
    (step (Event.evText (some { type := some "AgentThinking" })) c4start).1.convState
        = PState.thinking ∧
    (step (Event.evText (some { type := some "AgentStartedSpeaking" })) c4start).1.convState
        = PState.speaking ∧
    (step Event.evEnded c4start).1.convState = PState.listening ∧
    (step Event.evEnded c4start).1.convState ≠ PState.idle ∧
    (step (Event.evText (some { type := some "UserStartedSpeaking" })) c4start).1.convState
        = PState.listening ∧
    (step (Event.evText (some { type := some "UserStartedSpeaking" })) c4start).1.audioQueue
        = [] :=
  claim_C3 c4start c4start
    { type := some "SettingsApplied" } { type := some "AgentThinking" }
    { type := some "AgentStartedSpeaking" } { type := some "UserStartedSpeaking" }
    rfl rfl rfl rfl rfl rfl rfl

/-- Counterexample to claim C2 as stated: after exactly
`MAX_RECONNECTS = 3` consecutive close-without-handshake cycles
(following a successful handshake), the pipeline is NOT stopped — it is
still running in state `listening`, a further reconnect attempt is
scheduled, and no fatal error has been surfaced. -/
theorem claim_C2_counterexample :
    MAX_RECONNECTS = 3 ∧
    (run c2trace initState).isRunning = true ∧
    (run c2trace initState).reconnectTimerSet = true ∧
    (run c2trace initState).convState = PState.listening ∧
    (evsAlong c2trace initState).any isErrorEv = false := by
  decide

/-- Claim C2, amended: the reconnect counter is reset to 0 on every
successful handshake; a close that finds the counter already at the
maximum (i.e. the close that ends the (N+1)-th close-without-handshake
cycle, after N scheduled reconnect attempts) stops the pipeline, forces
state `idle`, schedules no new reconnect and surfaces the fatal error;
and a deliberate stop (running flag false) always suppresses
reconnection. -/
theorem claim_C2 (p1 p2 p3 : Pipeline) (m : RawMsg)
    (hm : m.type = some "SettingsApplied")
    (h2 : MAX_RECONNECTS ≤ p2.reconnectAttempts)
    (h3 : p3.isRunning = false) :
    (step (Event.evText (some m)) p1).1.reconnectAttempts = 0 ∧
    (step Event.evClose p2).1.isRunning = false ∧
    (step Event.evClose p2).1.convState = PState.idle ∧
    (step Event.evClose p2).1.reconnectTimerSet = p2.reconnectTimerSet ∧
    Ev.errorCb "Connection lost. Please restart." ∈ (step Event.evClose p2).2 ∧
    (step Event.evClose p3).1.reconnectTimerSet = p3.reconnectTimerSet ∧
    (step Event.evTimer p3).1.socket = p3.socket := by
  have hlt : ¬ (p2.reconnectAttempts < MAX_RECONNECTS) := by omega
  refine ⟨?_, ?_, ?_, ?_, ?_, ?_, ?_⟩
  · simp [step, onSocketText, handleAgentMessage, hm]
  · simp [step, onSocketClose, hlt, h2, stop, interruptPlayback]
  · simp [step, onSocketClose, hlt, h2, stop, interruptPlayback]
  · simp [step, onSocketClose, hlt, h2, stop, interruptPlayback]
  · simp [step, onSocketClose, hlt, h2, stop, interruptPlayback]
  · by_cases hc : MAX_RECONNECTS ≤ p3.reconnectAttempts <;>
      simp [step, onSocketClose, h3, hc, stop, interruptPlayback]
  · simp [step, onReconnectTimer, connectAgent, h3]

/-- Witness for C2: the handshake reset at the fresh pipeline, the fatal
close at the concrete state reached after three close-without-handshake
cycles, and reconnect suppression at the fresh (stopped) pipeline. -/
theorem claim_C2_witness :
    (step (Event.evText (some { type := some "SettingsApplied" })) initState).1.reconnectAttempts
        = 0 ∧
    (step Event.evClose (run c2trace initState)).1.isRunning = false ∧
    (step Event.evClose (run c2trace initState)).1.convState = PState.idle ∧
    (step Event.evClose (run c2trace initState)).1.reconnectTimerSet
        = (run c2trace initState).reconnectTimerSet ∧
    Ev.errorCb "Connection lost. Please restart."
        ∈ (step Event.evClose (run c2trace initState)).2 ∧
    (step Event.evClose initState).1.reconnectTimerSet = initState.reconnectTimerSet ∧
    (step Event.evTimer initState).1.socket = initState.socket :=
  claim_C2 initState (run c2trace initState) initState
    { type := some "SettingsApplied" } rfl (by decide) rfl

/-- Claim C8: the accumulator invariant — the running pending sample
count equals the sum of the lengths of the chunks held in the pending
accumulator — holds after every event sequence started in a state
satisfying it, and is preserved by each of ingest, flush, interrupt and
stop individually. -/
theorem claim_C8 (t : List Event) (p : Pipeline) (pcm : List Int)
    (h : pendingOK p) :
    pendingOK (run t p) ∧
    pendingOK (handleAudioChunk pcm p).1 ∧
    pendingOK (flushAudioBuffer p).1 ∧
    pendingOK (interruptPlayback p) ∧
    pendingOK (stop p).1 :=
  ⟨run_pendingOK t p h, handleAudioChunk_pendingOK pcm p h,
   flushAudioBuffer_pendingOK p h, by simp [pendingOK, interruptPlayback],
   stop_pendingOK p⟩

/-- Witness for C8 at the fresh pipeline, a concrete session trace with a
binary ingest and a flush, and a concrete ingest block. -/
theorem claim_C8_witness :
    pendingOK (run [Event.evStart, Event.evOpen, Event.evBinary [1, 2, 3],
        Event.evText (some { type := some "AgentAudioDone" }), Event.evStop]
        initState) ∧
    pendingOK (handleAudioChunk [7] initState).1 ∧
    pendingOK (flushAudioBuffer initState).1 ∧
    pendingOK (interruptPlayback initState) ∧
    pendingOK (stop initState).1 :=
  claim_C8 [Event.evStart, Event.evOpen, Event.evBinary [1, 2, 3],
    Event.evText (some { type := some "AgentAudioDone" }), Event.evStop]
    initState [7] rfl

theorem flushAudioBuffer_spec (q : Pipeline)
    (h1 : q.pendingAudioChunks ≠ []) (h2 : q.playbackContext = true)
    (h3 : q.isPlaying = false → q.currentSource = none)
    (h4 : pendingOK q) :
    (flushAudioBuffer q).1.pendingAudioChunks = [] ∧
    (flushAudioBuffer q).1.pendingSamples = 0 ∧
    playbackMaterial (flushAudioBuffer q).1 =
      playbackMaterial q ++ [q.pendingAudioChunks.flatten.map int16ToFloat] ∧
    (q.pendingAudioChunks.flatten.map int16ToFloat).length = q.pendingSamples := by
  have h4' : q.pendingSamples = (q.pendingAudioChunks.map List.length).sum := h4
  unfold flushAudioBuffer
  dsimp only
  rw [if_neg (by simp [h1, h2])]
  cases hpl : q.isPlaying
  · rw [if_pos rfl]
    rcases hqq : q.audioQueue with _ | ⟨d, ds⟩ <;>
      simp [playNextBuffer, h2, hqq, playbackMaterial, optList, h3 hpl,
        List.append_assoc, List.sum_append, h4', length_comp_map]
  · rw [if_neg (by simp)]
    simp [playbackMaterial, optList, List.append_assoc, List.sum_append,
      h4', length_comp_map]

/-- Claim C4: an ingest that keeps the pending count below the threshold
only accumulates (queues nothing); an ingest that reaches the threshold
(here stated for a live playback context) empties the accumulator and
extends the playback side by exactly one chunk, the in-order
concatenation of all pending blocks, whose sample count is the pending
count at flush time; and an explicit turn-audio-complete
(agent-audio-done) signal arriving with a non-empty accumulator flushes
it the same way: accumulator emptied, exactly one in-order concatenated
chunk of all pending samples appended to the playback side. -/
theorem claim_C4 (p : Pipeline) (pcm : List Int) (q : Pipeline) (qcm : List Int)
    (r : Pipeline) (m : RawMsg)
    (hp1 : pcm ≠ []) (hp2 : p.pendingSamples + pcm.length < BUFFER_SIZE)
    (hq1 : qcm ≠ []) (hq2 : BUFFER_SIZE ≤ q.pendingSamples + qcm.length)
    (hq3 : q.playbackContext = true)
    (hq4 : q.isPlaying = false → q.currentSource = none)
    (hq5 : pendingOK q)
    (hr1 : r.pendingAudioChunks ≠ []) (hr2 : r.playbackContext = true)
    (hr3 : r.isPlaying = false → r.currentSource = none)
    (hr4 : pendingOK r)
    (hm : m.type = some "AgentAudioDone") :
    handleAudioChunk pcm p =
      ({ p with pendingAudioChunks := p.pendingAudioChunks ++ [pcm],
                pendingSamples := p.pendingSamples + pcm.length }, []) ∧
    (handleAudioChunk qcm q).1.pendingAudioChunks = [] ∧
    (handleAudioChunk qcm q).1.pendingSamples = 0 ∧
    playbackMaterial (handleAudioChunk qcm q).1 =
      playbackMaterial q ++ [(q.pendingAudioChunks ++ [qcm]).flatten.map int16ToFloat] ∧
    ((q.pendingAudioChunks ++ [qcm]).flatten.map int16ToFloat).length =
      q.pendingSamples + qcm.length ∧
    (step (Event.evText (some m)) r).1.pendingAudioChunks = [] ∧
    (step (Event.evText (some m)) r).1.pendingSamples = 0 ∧
    playbackMaterial (step (Event.evText (some m)) r).1 =
      playbackMaterial r ++ [r.pendingAudioChunks.flatten.map int16ToFloat] ∧
    (r.pendingAudioChunks.flatten.map int16ToFloat).length = r.pendingSamples := by
  have hlen : ¬ (pcm.length = 0) := by simpa [List.length_eq_zero] using hp1
  have hql : ¬ (qcm.length = 0) := by simpa [List.length_eq_zero] using hq1
  have hnle : ¬ (BUFFER_SIZE ≤ p.pendingSamples + pcm.length) := not_le.mpr hp2
  have hstep : handleAudioChunk qcm q = flushAudioBuffer
      { q with pendingAudioChunks := q.pendingAudioChunks ++ [qcm],
               pendingSamples := q.pendingSamples + qcm.length } := by
    unfold handleAudioChunk
    dsimp only
    rw [if_neg hql, if_pos hq2]
  have hsig : step (Event.evText (some m)) r = flushAudioBuffer r := by
    show onSocketText (some m) r = _
    simp [onSocketText, handleAgentMessage, hm]
  have hq' := flushAudioBuffer_spec
      { q with pendingAudioChunks := q.pendingAudioChunks ++ [qcm],
               pendingSamples := q.pendingSamples + qcm.length }
      (by simp) hq3 hq4
      (by
        simp [pendingOK]
        exact hq5)
  have hr' := flushAudioBuffer_spec r hr1 hr2 hr3 hr4
  refine ⟨?_, ?_, ?_, ?_, ?_, ?_, ?_, ?_, ?_⟩
  · unfold handleAudioChunk
    dsimp only
    rw [if_neg hlen, if_neg hnle]
  · rw [hstep]
    exact hq'.1
  · rw [hstep]
    exact hq'.2.1
  · rw [hstep]
    exact hq'.2.2.1
  · exact hq'.2.2.2
  · rw [hsig]
    exact hr'.1
  · rw [hsig]
    exact hr'.2.1
  · rw [hsig]
    exact hr'.2.2.1
  · exact hr'.2.2.2

theorem replicate_int_ne_nil (n : Nat) (h : n ≠ 0) :
    List.replicate n (0 : Int) ≠ [] := by
  intro hh
  have h2 := congrArg List.length hh
  simp only [List.length_replicate, List.length_nil] at h2
  exact h h2

theorem c4mid_eq : c4mid =
    { c4start with pendingAudioChunks := [List.replicate 2000 0],
                   pendingSamples := 2000 } := by
  unfold c4mid handleAudioChunk
  dsimp only
  rw [if_neg (by simp only [List.length_replicate]; omega),
    if_neg (by simp only [List.length_replicate, c4start, initState, BUFFER_SIZE]; omega)]
  simp only [c4start, initState, List.nil_append, List.length_replicate, Nat.zero_add]

/-- Witness for C4: the 2000-then-1600 scenario — at threshold 3200 the
first ingest only accumulates (queue untouched, 2000 pending samples, no
output) and the second flushes one chunk of exactly 3600 samples onto the
playback side — and an explicit agent-audio-done signal arriving with the
2000-sample accumulator still pending flushes it into exactly one
2000-sample chunk. -/
theorem claim_C4_witness :
    (handleAudioChunk (List.replicate 2000 0) c4start).2 = [] ∧
    (handleAudioChunk (List.replicate 2000 0) c4start).1.audioQueue = c4start.audioQueue ∧
    (handleAudioChunk (List.replicate 2000 0) c4start).1.pendingSamples = 2000 ∧
    (handleAudioChunk (List.replicate 1600 0) c4mid).1.pendingAudioChunks = [] ∧
    (handleAudioChunk (List.replicate 1600 0) c4mid).1.pendingSamples = 0 ∧
    playbackMaterial (handleAudioChunk (List.replicate 1600 0) c4mid).1 =
      playbackMaterial c4mid ++
        [(c4mid.pendingAudioChunks ++ [List.replicate 1600 0]).flatten.map int16ToFloat] ∧
    ((c4mid.pendingAudioChunks ++ [List.replicate 1600 0]).flatten.map int16ToFloat).length =
      3600 ∧
    (step (Event.evText (some c4done)) c4mid).1.pendingAudioChunks = [] ∧
    (step (Event.evText (some c4done)) c4mid).1.pendingSamples = 0 ∧
    playbackMaterial (step (Event.evText (some c4done)) c4mid).1 =
      playbackMaterial c4mid ++ [c4mid.pendingAudioChunks.flatten.map int16ToFloat] ∧
    (c4mid.pendingAudioChunks.flatten.map int16ToFloat).length = 2000 := by
  have h := claim_C4 c4start (List.replicate 2000 0) c4mid (List.replicate 1600 0)
    c4mid c4done
    (replicate_int_ne_nil 2000 (by omega))
    (by simp only [List.length_replicate, c4start, initState, BUFFER_SIZE]; omega)
    (replicate_int_ne_nil 1600 (by omega))
    (by rw [c4mid_eq]; simp only [List.length_replicate, BUFFER_SIZE]; omega)
    (by rw [c4mid_eq]; rfl)
    (by rw [c4mid_eq]; intro hpl; exact absurd hpl (by simp [c4start, initState]))
    (by simp only [c4mid_eq, pendingOK, c4start, initState, List.map_cons,
      List.map_nil, List.length_replicate, List.sum_cons, List.sum_nil, Nat.add_zero])
    (by rw [c4mid_eq]; exact List.cons_ne_nil _ _)
    (by rw [c4mid_eq]; rfl)
    (by rw [c4mid_eq]; intro hpl; exact absurd hpl (by simp [c4start, initState]))
    (by simp only [c4mid_eq, pendingOK, c4start, initState, List.map_cons,
      List.map_nil, List.length_replicate, List.sum_cons, List.sum_nil, Nat.add_zero])
    rfl
  refine ⟨?_, ?_, ?_, h.2.1, h.2.2.1, h.2.2.2.1, ?_, h.2.2.2.2.2.1,
    h.2.2.2.2.2.2.1, h.2.2.2.2.2.2.2.1, ?_⟩
  · rw [h.1]
  · rw [h.1]
  · rw [h.1]
    simp only [c4start, initState, List.length_replicate]
  · rw [h.2.2.2.2.1, c4mid_eq]
    simp only [List.length_replicate]
  · rw [h.2.2.2.2.2.2.2.2, c4mid_eq]

/-- Counterexample to claim C5 as stated: at the capture sample 1/2 the
code stores `trunc(0.5 * 32767) = 16383` (a JS Int16Array store truncates
toward zero), while the claimed `round(0.5 * 32767)` is 16384. -/
theorem claim_C5_counterexample :
    encodeSample (1 / 2) = 16383 ∧
    encodeSampleSpec (1 / 2) = 16384 ∧
    encodeSample (1 / 2) ≠ encodeSampleSpec (1 / 2) := by
  refine ⟨?_, ?_, ?_⟩ <;>
    norm_num [encodeSample, encodeSampleSpec, clampSample, truncQ, round_eq]

/-- Claim C5, amended: the outbound int16 encoding first clamps the
sample to [-1,1] and then equals the truncation toward zero (not the
rounding) of `s < 0 ? s*32768 : s*32767` — stated here through the
floor function — the result always fits the int16 range (so the
Int16Array store never wraps), and the encoding of a block is
deterministic. -/
theorem claim_C5 (s : ℚ) (xs ys : List ℚ) (hxy : xs = ys) :
    encodeSample s =
      (if clampSample s < 0 then -(⌊-(clampSample s * 32768)⌋)
       else ⌊clampSample s * 32767⌋) ∧
    (-1 : ℚ) ≤ clampSample s ∧ clampSample s ≤ 1 ∧
    (-32768 : ℤ) ≤ encodeSample s ∧ encodeSample s ≤ 32767 ∧
    encodeBlock xs = encodeBlock ys := by
  subst hxy
  have hc1 : (-1 : ℚ) ≤ clampSample s := le_max_left _ _
  have hc2 : clampSample s ≤ 1 := max_le (by norm_num) (min_le_left _ _)
  by_cases hneg : clampSample s < 0
  · have hq : clampSample s * 32768 < 0 := mul_neg_of_neg_of_pos hneg (by norm_num)
    have henc : encodeSample s = ⌈clampSample s * 32768⌉ := by
      simp [encodeSample, truncQ, hneg, hq]
    refine ⟨?_, hc1, hc2, ?_, ?_, rfl⟩
    · rw [henc, if_pos hneg, Int.floor_neg, neg_neg]
    · have h1 : ((-32769 : ℤ) : ℚ) < clampSample s * 32768 := by push_cast; nlinarith
      have h2 := Int.lt_ceil.mpr h1
      rw [henc]; omega
    · have h1 : clampSample s * 32768 ≤ ((0 : ℤ) : ℚ) := by push_cast; linarith
      have h2 := Int.ceil_le.mpr h1
      rw [henc]; omega
  · have h0 : (0 : ℚ) ≤ clampSample s := not_lt.mp hneg
    have hq : (0 : ℚ) ≤ clampSample s * 32767 := by positivity
    have henc : encodeSample s = ⌊clampSample s * 32767⌋ := by
      simp [encodeSample, truncQ, hneg, not_lt.mpr hq]
    refine ⟨?_, hc1, hc2, ?_, ?_, rfl⟩
    · rw [henc, if_neg hneg]
    · have h2 := Int.floor_nonneg.mpr hq
      rw [henc]; omega
    · have h1 : clampSample s * 32767 < ((32768 : ℤ) : ℚ) := by push_cast; nlinarith
      have h2 := Int.floor_lt.mpr h1
      rw [henc]; omega

/-- Witness for the amended C5 at the sample 1/2 and the one-sample
block [1/2]. -/
theorem claim_C5_witness :
    encodeSample (1 / 2) =
      (if clampSample (1 / 2) < 0 then -(⌊-(clampSample (1 / 2) * 32768)⌋)
       else ⌊clampSample (1 / 2) * 32767⌋) ∧
    (-1 : ℚ) ≤ clampSample (1 / 2) ∧ clampSample (1 / 2) ≤ 1 ∧
    (-32768 : ℤ) ≤ encodeSample (1 / 2) ∧ encodeSample (1 / 2) ≤ 32767 ∧
    encodeBlock [1 / 2] = encodeBlock [1 / 2] :=
  claim_C5 (1 / 2) [1 / 2] [1 / 2] rfl

theorem playNextBuffer_noctx (p : Pipeline) (hb : p.playbackContext = false) :
    playNextBuffer p =
      if p.isRunning = true then
        ({ p with isPlaying := false, convState := PState.listening },
         [Ev.stateChange PState.listening])
      else ({ p with isPlaying := false }, []) := by
  unfold playNextBuffer
  rw [hb]

theorem FromBlocks_mono {bs bs2 : List (List Int)}
    (hsub : ∀ b ∈ bs, b ∈ bs2) {c : List ℚ} (h : FromBlocks bs c) :
    FromBlocks bs2 c := by
  obtain ⟨l, hl, hc⟩ := h
  exact ⟨l, fun b hb => hsub b (hl b hb), hc⟩

theorem Prov_mono {bs bs2 : List (List Int)} (hsub : ∀ b ∈ bs, b ∈ bs2)
    {p : Pipeline} (h : Prov bs p) : Prov bs2 p :=
  ⟨fun b hb => hsub b (h.1 b hb), fun c hc => FromBlocks_mono hsub (h.2 c hc)⟩

theorem playNextBuffer_prov (bs : List (List Int)) (p : Pipeline) (h : Prov bs p) :
    Prov bs (playNextBuffer p).1 ∧
    ∀ c, Ev.playStart c ∈ (playNextBuffer p).2 → FromBlocks bs c := by
  by_cases hb : p.playbackContext = true
  · rcases hq : p.audioQueue with _ | ⟨d, ds⟩
    · rw [playNextBuffer_nil p hq]
      by_cases hr : p.isRunning = true
      · rw [if_pos hr]
        exact ⟨⟨h.1, h.2⟩, by simp⟩
      · rw [if_neg hr]
        exact ⟨⟨h.1, h.2⟩, by simp⟩
    · rw [playNextBuffer_cons p d ds hb hq]
      constructor
      · refine ⟨h.1, fun c hc => h.2 c ?_⟩
        rw [hq]
        exact List.mem_cons_of_mem _ hc
      · intro c hc
        have hcd : c = d := by simpa using hc
        subst hcd
        exact h.2 c (by rw [hq]; exact List.mem_cons_self _ _)
  · rw [playNextBuffer_noctx p (by simpa using hb)]
    by_cases hr : p.isRunning = true
    · rw [if_pos hr]
      exact ⟨⟨h.1, h.2⟩, by simp⟩
    · rw [if_neg hr]
      exact ⟨⟨h.1, h.2⟩, by simp⟩

theorem flushAudioBuffer_prov (bs : List (List Int)) (p : Pipeline) (h : Prov bs p) :
    Prov bs (flushAudioBuffer p).1 ∧
    ∀ c, Ev.playStart c ∈ (flushAudioBuffer p).2 → FromBlocks bs c := by
  unfold flushAudioBuffer
  dsimp only
  by_cases hg : p.playbackContext = false ∨ p.pendingAudioChunks = []
  · rw [if_pos hg]
    exact ⟨⟨h.1, h.2⟩, by simp⟩
  · rw [if_neg hg]
    have hq : Prov bs
        { p with pendingAudioChunks := []
                 pendingSamples := 0
                 audioQueue :=
                   p.audioQueue ++ [p.pendingAudioChunks.flatten.map int16ToFloat] } := by
      constructor
      · intro b hb
        exact absurd hb (List.not_mem_nil b)
      · intro c hc
        rcases List.mem_append.mp hc with hc1 | hc1
        · exact h.2 c hc1
        · have hc2 : c = p.pendingAudioChunks.flatten.map int16ToFloat := by
            simpa using hc1
          exact hc2 ▸ ⟨p.pendingAudioChunks, h.1, rfl⟩
    by_cases hpl : p.isPlaying = false
    · rw [if_pos hpl]
      exact playNextBuffer_prov bs _ hq
    · rw [if_neg hpl]
      exact ⟨hq, by simp⟩

theorem handleAudioChunk_prov (bs : List (List Int)) (pcm : List Int) (p : Pipeline)
    (h : Prov bs p) (hpcm : pcm ∈ bs) :
    Prov bs (handleAudioChunk pcm p).1 ∧
    ∀ c, Ev.playStart c ∈ (handleAudioChunk pcm p).2 → FromBlocks bs c := by
  unfold handleAudioChunk
  dsimp only
  by_cases hz : pcm.length = 0
  · rw [if_pos hz]
    exact ⟨⟨h.1, h.2⟩, by simp⟩
  · rw [if_neg hz]
    have hq : Prov bs
        { p with pendingAudioChunks := p.pendingAudioChunks ++ [pcm]
                 pendingSamples := p.pendingSamples + pcm.length } := by
      refine ⟨fun b hb => ?_, h.2⟩
      rcases List.mem_append.mp hb with hb1 | hb1
      · exact h.1 b hb1
      · have hb2 : b = pcm := by simpa using hb1
        exact hb2 ▸ hpcm
    by_cases ht : BUFFER_SIZE ≤ p.pendingSamples + pcm.length
    · rw [if_pos ht]
      exact flushAudioBuffer_prov bs _ hq
    · rw [if_neg ht]
      exact ⟨hq, by simp⟩

theorem handleTranscript_prov (bs : List (List Int)) (m : RawMsg) (p : Pipeline)
    (h : Prov bs p) :
    Prov bs (handleTranscript m p).1 ∧
    ∀ c, Ev.playStart c ∈ (handleTranscript m p).2 → FromBlocks bs c := by
  unfold handleTranscript
  dsimp only
  by_cases ht : (transcriptText m).trim.isEmpty = true
  · rw [if_pos ht]
    exact ⟨⟨h.1, h.2⟩, by simp⟩
  · rw [if_neg ht]
    exact ⟨⟨h.1, h.2⟩, by simp⟩

theorem stop_prov (bs : List (List Int)) (p : Pipeline) :
    Prov bs (stop p).1 ∧
    ∀ c, Ev.playStart c ∈ (stop p).2 → FromBlocks bs c := by
  constructor
  · constructor
    · intro b hb
      exact absurd hb (List.not_mem_nil b)
    · intro c hc
      exact absurd hc (List.not_mem_nil c)
  · intro c hc
    simp [stop] at hc

theorem handleAgentMessage_prov (bs : List (List Int)) (m : RawMsg) (p : Pipeline)
    (h : Prov bs p) :
    Prov bs (handleAgentMessage m p).1 ∧
    ∀ c, Ev.playStart c ∈ (handleAgentMessage m p).2 → FromBlocks bs c := by
  unfold handleAgentMessage
  by_cases h1 : m.type = some "SettingsApplied"
  · rw [if_pos h1]
    exact ⟨⟨h.1, h.2⟩, by simp⟩
  rw [if_neg h1]
  by_cases h2 : m.type = some "UserStartedSpeaking"
  · rw [if_pos h2]
    refine ⟨⟨?_, ?_⟩, by simp⟩
    · intro b hb
      exact absurd hb (List.not_mem_nil b)
    · intro c hc
      exact absurd hc (List.not_mem_nil c)
  rw [if_neg h2]
  by_cases h3 : m.type = some "ConversationText"
  · rw [if_pos h3]
    exact handleTranscript_prov bs m p h
  rw [if_neg h3]
  by_cases h4 : m.type = some "AgentThinking"
  · rw [if_pos h4]
    exact ⟨⟨h.1, h.2⟩, by simp⟩
  rw [if_neg h4]
  by_cases h5 : m.type = some "AgentStartedSpeaking"
  · rw [if_pos h5]
    exact ⟨⟨h.1, h.2⟩, by simp⟩
  rw [if_neg h5]
  by_cases h6 : m.type = some "AgentAudioDone"
  · rw [if_pos h6]
    exact flushAudioBuffer_prov bs p h
  rw [if_neg h6]
  by_cases h7 : m.type = some "Error"
  · rw [if_pos h7]
    exact ⟨⟨h.1, h.2⟩, by simp⟩
  · rw [if_neg h7]
    exact ⟨⟨h.1, h.2⟩, by simp⟩

theorem step_prov (e : Event) (p : Pipeline) (bs : List (List Int)) (h : Prov bs p) :
    Prov (bs ++ blocksOf e) (step e p).1 ∧
    ∀ c, Ev.playStart c ∈ (step e p).2 → FromBlocks (bs ++ blocksOf e) c := by
  have hmono : ∀ b ∈ bs, b ∈ bs ++ blocksOf e := fun b hb => List.mem_append_left _ hb
  have h2 : Prov (bs ++ blocksOf e) p := Prov_mono hmono h
  cases e with
  | evStart =>
      simp only [step]
      unfold startOk connectAgent
      dsimp only
      by_cases hr : p.isRunning = true
      · rw [if_pos hr]
        exact ⟨⟨h2.1, h2.2⟩, by simp⟩
      · rw [if_neg hr, if_neg (by simp)]
        exact ⟨⟨h2.1, h2.2⟩, by simp⟩
  | evOpen =>
      simp only [step]
      exact ⟨⟨h2.1, h2.2⟩, by simp [onSocketOpen]⟩
  | evClose =>
      simp only [step]
      unfold onSocketClose
      dsimp only
      by_cases hc1 : p.isRunning = true ∧ p.reconnectAttempts < MAX_RECONNECTS
      · rw [if_pos hc1]
        exact ⟨⟨h2.1, h2.2⟩, by simp⟩
      · rw [if_neg hc1]
        by_cases hc2 : MAX_RECONNECTS ≤ p.reconnectAttempts
        · rw [if_pos hc2]
          dsimp only
          constructor
          · exact (stop_prov _ _).1
          · intro c hc
            rcases List.mem_cons.mp hc with hcc | hcc
            · cases hcc
            · exact (stop_prov _ _).2 c hcc
        · rw [if_neg hc2]
          exact ⟨⟨h2.1, h2.2⟩, by simp⟩
  | evText parsed =>
      cases parsed with
      | none =>
          simp only [step]
          exact ⟨⟨h2.1, h2.2⟩, by simp [onSocketText]⟩
      | some m =>
          simp only [step, onSocketText]
          exact handleAgentMessage_prov _ m p h2
  | evBinary pcm =>
      simp only [step]
      exact handleAudioChunk_prov _ pcm p h2
        (List.mem_append_right _ (by simp [blocksOf]))
  | evTimer =>
      simp only [step]
      unfold onReconnectTimer connectAgent
      dsimp only
      by_cases hr : p.isRunning = false
      · rw [if_pos hr]
        exact ⟨⟨h2.1, h2.2⟩, by simp⟩
      · rw [if_neg hr]
        exact ⟨⟨h2.1, h2.2⟩, by simp⟩
  | evEnded =>
      simp only [step]
      unfold onSourceEnded
      exact playNextBuffer_prov _ _ ⟨h2.1, h2.2⟩
  | evStop =>
      simp only [step]
      exact stop_prov _ p

theorem ingestedBlocks_cons (e : Event) (t : List Event) :
    ingestedBlocks (e :: t) = blocksOf e ++ ingestedBlocks t := by
  cases e <;> rfl

theorem playedAlong_cons (e : Event) (t : List Event) (p : Pipeline) :
    playedAlong (e :: t) p =
      ((step e p).2.filterMap fun ev =>
        match ev with
        | Ev.playStart c => some c
        | _ => none) ++ playedAlong t (step e p).1 := by
  unfold playedAlong
  rw [show evsAlong (e :: t) p = (step e p).2 ++ evsAlong t (step e p).1 from rfl,
    List.filterMap_append]

theorem playedAlong_prov (t : List Event) :
    ∀ (p : Pipeline) (bs : List (List Int)), Prov bs p →
      ∀ c ∈ playedAlong t p, FromBlocks (bs ++ ingestedBlocks t) c := by
  induction t with
  | nil =>
      intro p bs h c hc
      exact absurd hc (List.not_mem_nil c)
  | cons e t ih =>
      intro p bs h c hc
      rw [playedAlong_cons] at hc
      have hs := step_prov e p bs h
      have hsub1 : ∀ b ∈ bs ++ blocksOf e, b ∈ bs ++ ingestedBlocks (e :: t) := by
        intro b hb
        rw [ingestedBlocks_cons, ← List.append_assoc]
        exact List.mem_append_left _ hb
      have hsub2 : ∀ b ∈ (bs ++ blocksOf e) ++ ingestedBlocks t,
          b ∈ bs ++ ingestedBlocks (e :: t) := by
        intro b hb
        rw [ingestedBlocks_cons, ← List.append_assoc]
        exact hb
      rcases List.mem_append.mp hc with hc1 | hc1
      · obtain ⟨ev, hev, hev2⟩ := List.mem_filterMap.mp hc1
        cases ev <;> simp at hev2
        subst hev2
        exact FromBlocks_mono hsub1 (hs.2 _ hev)
      · exact FromBlocks_mono hsub2 (ih _ (bs ++ blocksOf e) hs.1 c hc1)

/-- Claim C1: a barge-in (user-started-speaking event) leaves the
playback queue empty, the pending accumulator empty with a zero sample
count, the playing flag false, the current source stopped, and the
conversation state `listening`; afterwards a subsequent ingest starts
from the empty accumulator, and every chunk whose audible playback
starts during any subsequent event trace is built exclusively from
sample blocks ingested within that trace — no chunk queued or pending
before the interrupt ever plays. -/
theorem claim_C1 (p : Pipeline) (m : RawMsg) (t : List Event) (q : Pipeline)
    (hm : m.type = some "UserStartedSpeaking")
    (hq : q = (step (Event.evText (some m)) p).1) :
    q.audioQueue = [] ∧ q.pendingAudioChunks = [] ∧ q.pendingSamples = 0 ∧
    q.isPlaying = false ∧ q.currentSource = none ∧
    q.convState = PState.listening ∧
    ∀ c ∈ playedAlong t q, FromBlocks (ingestedBlocks t) c := by
  have hq2 : q = { interruptPlayback p with convState := PState.listening } := by
    rw [hq]
    show (onSocketText (some m) p).1 = _
    simp [onSocketText, handleAgentMessage, hm]
  subst hq2
  refine ⟨rfl, rfl, rfl, rfl, rfl, rfl, ?_⟩
  have hprov : Prov [] { interruptPlayback p with convState := PState.listening } := by
    constructor
    · intro b hb
      exact absurd hb (List.not_mem_nil b)
    · intro c hc
      exact absurd hc (List.not_mem_nil c)
  intro c hc
  have hres := playedAlong_prov t _ [] hprov c hc
  simpa using hres

/-- Witness for C1 at the busy barge-in scenario state (two chunks
queued, one playing, one block pending) and a concrete
user-started-speaking message. -/
theorem claim_C1_witness :
    (step (Event.evText (some c1msg)) c1busy).1.audioQueue = [] ∧
    (step (Event.evText (some c1msg)) c1busy).1.pendingAudioChunks = [] ∧
    (step (Event.evText (some c1msg)) c1busy).1.pendingSamples = 0 ∧
    (step (Event.evText (some c1msg)) c1busy).1.isPlaying = false ∧
    (step (Event.evText (some c1msg)) c1busy).1.currentSource = none ∧
    (step (Event.evText (some c1msg)) c1busy).1.convState = PState.listening := by
  have h := claim_C1 c1busy c1msg [] _ rfl rfl
  exact ⟨h.1, h.2.1, h.2.2.1, h.2.2.2.1, h.2.2.2.2.1, h.2.2.2.2.2.1⟩

/-- Claim C10: for a finalized-transcript (conversation-text) message a
transcript entry is emitted iff the extracted text is nonempty after
trimming; the emitted role is `user` exactly when the message's role
field equals "user" (any other value, including absent, yields
`assistant`); the emitted text is the trimmed extraction; and the
pipeline state is unchanged. -/
theorem claim_C10 (p : Pipeline) (m : RawMsg)
    (hm : m.type = some "ConversationText") :
    ((step (Event.evText (some m)) p).2.any isFinalEv
        = !(transcriptText m).trim.isEmpty) ∧
    finalRoles (step (Event.evText (some m)) p).2 =
      (if (transcriptText m).trim.isEmpty = true then []
       else [if m.role = some "user" then Role.user else Role.assistant]) ∧
    finalTexts (step (Event.evText (some m)) p).2 =
      (if (transcriptText m).trim.isEmpty = true then []
       else [(transcriptText m).trim]) ∧
    (step (Event.evText (some m)) p).1 = p := by
  have hh : step (Event.evText (some m)) p = handleTranscript m p := by
    show onSocketText (some m) p = _
    simp [onSocketText, handleAgentMessage, hm]
  rw [hh]
  unfold handleTranscript
  dsimp only
  cases hte : (transcriptText m).trim.isEmpty <;>
    simp [finalRoles, finalTexts, isFinalEv, hte]

/-- Witness for C10 at the fresh pipeline and a concrete user
conversation-text message carrying the text " hi ". -/
theorem claim_C10_witness :
    ((step (Event.evText (some c10msg)) initState).2.any isFinalEv
        = !(transcriptText c10msg).trim.isEmpty) ∧
    finalRoles (step (Event.evText (some c10msg)) initState).2 =
      (if (transcriptText c10msg).trim.isEmpty = true then []
       else [if c10msg.role = some "user" then Role.user else Role.assistant]) ∧
    finalTexts (step (Event.evText (some c10msg)) initState).2 =
      (if (transcriptText c10msg).trim.isEmpty = true then []
       else [(transcriptText c10msg).trim]) ∧
    (step (Event.evText (some c10msg)) initState).1 = initState :=
  claim_C10 initState c10msg rfl

end VP
